import Mathlib

/-!
Verification development for `tinymbc`, a minimal Modbus TCP command-line
client (`tinymbc.py`).  The Python source is shallowly embedded below:

* Python `int` values become `Int`/`Nat`; the few places where non-integer
  numeric inputs matter (the `isinstance` check of `uint16_to_int16`) are
  modelled over `ℚ`, where a Python `float` such as `1.5` is represented
  exactly and integrality is `den = 1`.
* Python strings become `List Char`; `str.split(sep)` for a one-character
  separator becomes `splitOnSep`.  Python `int(s)` / `int(s, 16)` are
  modelled as an optional sign followed by decimal / hexadecimal digits
  (whitespace and underscore forms are never produced by the call sites).
* Exceptions (`ValueError`, `UserWarning`, `struct.error`, `OverflowError`)
  become `Option`/`Except` failures.
* The TCP socket is abstracted as a function `net : List Nat → List Nat`
  mapping the sent request frame to the received response buffer; the
  receive buffer of size `n` prefilled with zeros is modelled by reading
  bytes with `List.getD _ 0`.
* The mutable `transaction_id` field of `ModbusClient` is threaded as
  explicit state.
-/

namespace Tinymbc

/-- Transaction id update of `ModbusClient` (tinymbc.py lines 238-240,
285-287, 319-321): `if self.transaction_id < 255: transaction_id += 1
else: transaction_id = 1`; the updated value is the id used. -/
def nextId (transaction_id : Nat) : Nat :=
  if transaction_id < 255 then transaction_id + 1 else 1

/-- State of the transaction counter after `k` requests have been issued,
starting from the initial value `0` set in `ModbusClient.__init__`
(line 223).  The id used by the `k`-th request is `idSeq k`. -/
def idSeq : Nat → Nat
  | 0 => 0
  | k + 1 => nextId (idSeq k)

/-- tinymbc.py lines 45-52, restricted to the integer inputs produced by
its in-repo call sites.  The `isinstance(ui, int)` test is vacuous on
`Int`; `uint16_to_int16q` models the full numeric domain. -/
def uint16_to_int16 (ui : Int) : Option Int :=
  if ui < 0 ∨ 65536 ≤ ui then none
  else if 32767 < ui then some (ui - 65536) else some ui

/-- tinymbc.py lines 54-61, integer inputs. -/
def int16_to_uint16 (i : Int) : Option Int :=
  if i < -32768 ∨ 32767 < i then none
  else if i < 0 then some (i + 65536) else some i

/-- tinymbc.py lines 45-52 over `ℚ`, modelling Python numbers that may be
non-integral: `not isinstance(ui, int)` becomes `ui.den ≠ 1`.  The source
tests `ui < 0 or ui >= 65536 or not isinstance(ui, int)` in this order. -/
def uint16_to_int16q (ui : ℚ) : Option ℚ :=
  if ui < 0 ∨ 65536 ≤ ui ∨ ui.den ≠ 1 then none
  else if 32767 < ui then some (ui - 65536) else some ui

/-- tinymbc.py lines 54-61 over `ℚ`: the source tests only
`i < -32768 or i > 32767` and has no integrality check. -/
def int16_to_uint16q (i : ℚ) : Option ℚ :=
  if i < -32768 ∨ 32767 < i then none
  else if i < 0 then some (i + 65536) else some i

/-- Python `str.split(sep)` for a one-character separator `sep`:
`"".split(sep) == [""]`, and separators at the ends produce empty pieces. -/
def splitOnSep (sep : Char) : List Char → List (List Char)
  | [] => [[]]
  | c :: rest =>
    let r := splitOnSep sep rest
    if c = sep then [] :: r
    else
      match r with
      | [] => [[c]]
      | p :: ps => (c :: p) :: ps

/-- Decimal digit value of a character, `none` for non-digits. -/
def digitVal (c : Char) : Option Nat :=
  if '0' ≤ c ∧ c ≤ '9' then some (c.toNat - '0'.toNat) else none

/-- Hexadecimal digit value of a character, `none` for non-hex-digits. -/
def hexDigitVal (c : Char) : Option Nat :=
  if '0' ≤ c ∧ c ≤ '9' then some (c.toNat - '0'.toNat)
  else if 'a' ≤ c ∧ c ≤ 'f' then some (c.toNat - 'a'.toNat + 10)
  else if 'A' ≤ c ∧ c ≤ 'F' then some (c.toNat - 'A'.toNat + 10)
  else none

/-- Reads a run of decimal digits left to right, accumulating the value. -/
def digitsAux (acc : Nat) : List Char → Option Nat
  | [] => some acc
  | c :: cs =>
    match digitVal c with
    | none => none
    | some d => digitsAux (10 * acc + d) cs

/-- A non-empty all-decimal-digit string, as a number. -/
def parseDigits (s : List Char) : Option Nat :=
  if s = [] then none else digitsAux 0 s

/-- Reads a run of hexadecimal digits left to right. -/
def hexDigitsAux (acc : Nat) : List Char → Option Nat
  | [] => some acc
  | c :: cs =>
    match hexDigitVal c with
    | none => none
    | some d => hexDigitsAux (16 * acc + d) cs

/-- A non-empty all-hexadecimal-digit string, as a number. -/
def parseHexDigits (s : List Char) : Option Nat :=
  if s = [] then none else hexDigitsAux 0 s

/-- Python `int(s)` (base 10) as used by the call sites: an optional sign
followed by one or more decimal digits; anything else raises `ValueError`
(`none` here). -/
def parsePyInt : List Char → Option Int
  | '-' :: rest => (parseDigits rest).map (fun n => -(n : Int))
  | '+' :: rest => (parseDigits rest).map (fun n => (n : Int))
  | s => (parseDigits s).map (fun n => (n : Int))

/-- Hexadecimal digits with an optional `0x`/`0X` prefix, as accepted by
Python `int(s, 16)`. -/
def parseHexBody : List Char → Option Nat
  | '0' :: 'x' :: rest => parseHexDigits rest
  | '0' :: 'X' :: rest => parseHexDigits rest
  | s => parseHexDigits s

/-- Python `int(s, 16)`: an optional sign, an optional `0x` prefix, then
one or more hexadecimal digits. -/
def parsePyIntHex : List Char → Option Int
  | '-' :: rest => (parseHexBody rest).map (fun n => -(n : Int))
  | '+' :: rest => (parseHexBody rest).map (fun n => (n : Int))
  | s => (parseHexBody s).map (fun n => (n : Int))

/-- tinymbc.py lines 84-89: `int(addr_str)` then bounds check
`addr > 65535 or addr < 0`. -/
def string_to_valid_address (addr_str : List Char) : Option Nat :=
  match parsePyInt addr_str with
  | none => none
  | some addr => if 65535 < addr ∨ addr < 0 then none else some addr.toNat

/-- tinymbc.py lines 91-101: base-16 when the text starts with `0x`, else
base 10; a negative parsed value is passed to `uint16_to_int16` (the
source really calls `uint16_to_int16` here, which rejects every negative
input); finally the bounds check `val < 0 or val > 65535`. -/
def string_to_valid_value (val_str : List Char) : Option Nat :=
  match (if val_str.take 2 = ['0', 'x'] then parsePyIntHex val_str else parsePyInt val_str) with
  | none => none
  | some val =>
    match (if val < 0 then uint16_to_int16 val else some val) with
    | none => none
    | some val => if val < 0 ∨ 65535 < val then none else some val.toNat

/-- tinymbc.py lines 217-226: of the Python object only the fields that
the protocol logic reads are modelled; host, port and the socket are
abstracted away (the socket becomes the `net` argument of the request
functions). `transaction_id` starts at 0. -/
structure ModbusClient where
  unitid : Nat
  transaction_id : Nat
deriving DecidableEq

/-- Big-endian 16-bit decoding of `struct.unpack` with format
`'>HH…H'` (`length` fields), reading from a zero-prefilled buffer. -/
def unpackWords : Nat → List Nat → List Nat
  | 0, _ => []
  | q + 1, bytes =>
    (256 * bytes.getD 0 0 + bytes.getD 1 0) :: unpackWords q (bytes.drop 2)

/-- tinymbc.py lines 228-274, `ModbusClient.read_holding_regs`.  The
socket is the `net` function from sent request frame to received buffer;
`recv_into` into the zero-prefilled buffer of size `2*length + 9` is
modelled by `List.getD _ 0` reads (indices past the received data read 0,
data past the buffer size is ignored).  Returns the updated client and
the register list (empty on any mismatch, mirroring `return []`). -/
def read_holding_regs (client : ModbusClient) (start_address length : Nat)
    (net : List Nat → List Nat) : ModbusClient × List Nat :=
  let tid := nextId client.transaction_id
  let request := [0, tid, 0, 0, 0, 6,
                  client.unitid, 3,
                  start_address / 256, start_address % 256,
                  length / 256, length % 256]
  let rcv_buffer := net request
  let returned_transaction_id := rcv_buffer.getD 1 0
  let returned_function_ode := rcv_buffer.getD 7 0
  let nr_of_bytes_transmitted := rcv_buffer.getD 8 0
  let client' := { client with transaction_id := tid }
  if returned_transaction_id ≠ tid ∨ returned_function_ode ≠ 3 ∨
      nr_of_bytes_transmitted ≠ 2 * length then
    (client', [])
  else
    (client', unpackWords length (rcv_buffer.drop 9))

/-- The Python exceptions that steer control flow in the worker
functions: `ValueError` and `UserWarning`. -/
inductive PyErr
  | valueError
  | userWarning
deriving DecidableEq

/-- tinymbc.py lines 336-341. -/
structure ReadoutResultSet where
  start : Nat
  length : Nat
  results : List Nat
deriving DecidableEq

/-- The register-group analysis inlined in `perform_readout`
(tinymbc.py lines 116-137), factored out: `skip` is the `continue` of the
final `else` branch, `fatal` is a raised `ValueError` (from
`string_to_valid_address` or from the `length > 125` check), and
`ok start length` falls through to the client call. -/
inductive GroupParse
  | skip
  | fatal
  | ok (start length : Nat)
deriving DecidableEq

/-- tinymbc.py lines 116-137: split on `-`; one piece is a single
address of length 1; two pieces are order-normalized into
`start ≤ end` with `length = end - start + 1`, rejected past 125;
any other piece count is skipped. -/
def parseReadGroup (reg_group : List Char) : GroupParse :=
  match splitOnSep '-' reg_group with
  | [a] =>
    match string_to_valid_address a with
    | none => GroupParse.fatal
    | some start => GroupParse.ok start 1
  | [a, b] =>
    match string_to_valid_address a with
    | none => GroupParse.fatal
    | some start =>
      match string_to_valid_address b with
      | none => GroupParse.fatal
      | some e =>
        let p : Nat × Nat :=
          if e = start then (start, 1)
          else if start < e then (start, e - start + 1)
          else (e, start - e + 1)
        if 125 < p.2 then GroupParse.fatal else GroupParse.ok p.1 p.2
  | _ => GroupParse.skip

/-- tinymbc.py lines 111-145, `perform_readout`.  Verbose printing is
dropped; the accumulating `result_set` list becomes the returned list; a
raised `ValueError`/`UserWarning` becomes `Except.error` (aborting the
remaining groups, as the exception propagates out of the loop). -/
def perform_readout (reg_groups : List (List Char)) (net : List Nat → List Nat)
    (client : ModbusClient) : Except PyErr (ModbusClient × List ReadoutResultSet) :=
  match reg_groups with
  | [] => Except.ok (client, [])
  | g :: rest =>
    match parseReadGroup g with
    | GroupParse.skip => perform_readout rest net client
    | GroupParse.fatal => Except.error PyErr.valueError
    | GroupParse.ok start length =>
      let step := read_holding_regs client start length net
      if step.2.length ≠ length then Except.error PyErr.userWarning
      else
        match perform_readout rest net step.1 with
        | Except.error e => Except.error e
        | Except.ok (c, rs) =>
          Except.ok (c, ReadoutResultSet.mk start length step.2 :: rs)

/-- The observable effect of one write group: which client call
`perform_write` performs with which arguments. -/
inductive WriteAction
  | single (address value : Nat)
  | multi (address : Nat) (values : List Nat)
deriving DecidableEq

/-- The value-list parse loop of `perform_write` (tinymbc.py lines
154-157): each `;`-separated piece through `string_to_valid_value`,
failing on the first `ValueError`. -/
def parseValues : List (List Char) → Option (List Nat)
  | [] => some []
  | v :: vs =>
    match string_to_valid_value v with
    | none => none
    | some n => (parseValues vs).map (fun l => n :: l)

/-- tinymbc.py lines 147-172, `perform_write`.  The client calls are
recorded as `WriteAction`s (their returned raw buffers are never
inspected by the source); a raised `ValueError` becomes `Except.error`,
aborting the remaining groups as in the source, where it propagates out
of the loop to the handler at lines 423-425. The final branch (an empty
value list) is unreachable because `split` never returns an empty list. -/
def perform_write (reg_groups : List (List Char)) : Except PyErr (List WriteAction) :=
  match reg_groups with
  | [] => Except.ok []
  | g :: rest =>
    match splitOnSep '=' g with
    | [a, v] =>
      match string_to_valid_address a with
      | none => Except.error PyErr.valueError
      | some addr =>
        match parseValues (splitOnSep ';' v) with
        | none => Except.error PyErr.valueError
        | some vals =>
          if vals.length = 1 then
            match perform_write rest with
            | Except.error e => Except.error e
            | Except.ok acts => Except.ok (WriteAction.single addr (vals.headD 0) :: acts)
          else if 1 < vals.length then
            match perform_write rest with
            | Except.error e => Except.error e
            | Except.ok acts => Except.ok (WriteAction.multi addr vals :: acts)
          else perform_write rest
    | _ => perform_write rest

/-- The payload loop of `write_multi_regs` (tinymbc.py lines 309-311):
`pack('>H', v)` for each value, concatenated.  `pack` itself raises for
values above 65535, which is checked before this is applied. -/
def packWords : List Nat → List Nat
  | [] => []
  | v :: vs => v / 256 :: v % 256 :: packWords vs

/-- tinymbc.py lines 301-333, `ModbusClient.write_multi_regs`, up to the
point where the request frame has been built and sent: returns the
updated client and the sent frame.  `none` models the uncaught Python
errors while building the frame: `struct.error` from `pack('>H', v)` for
a value above 65535, and `OverflowError` from `array('B', …)` for any
header entry above 255 (notably `msg_length = 7 + 2*n` for `n ≥ 125`).
The response buffer is read but never inspected by the source, so it is
not modelled. -/
def write_multi_regs (client : ModbusClient) (address : Nat) (values : List Nat) :
    Option (ModbusClient × List Nat) :=
  let add_hi := address / 256
  let add_lo := address % 256
  if values.any (fun v => 65535 < v) then none
  else
    let payload := packWords values
    let nr_of_regs := payload.length / 2
    let len_hi := nr_of_regs / 256
    let len_lo := nr_of_regs % 256
    let pl_length := payload.length
    let msg_length := 7 + pl_length
    let tid := nextId client.transaction_id
    let header := [0, tid, 0, 0, 0, msg_length,
                   client.unitid, 16, add_hi, add_lo, len_hi, len_lo, pl_length]
    if header.any (fun b => 255 < b) then none
    else some ({ client with transaction_id := tid }, header ++ payload)

deriving instance DecidableEq for Except

set_option maxRecDepth 10000

/-! ### Helper lemmas -/

lemma getD_drop (l : List Nat) : ∀ n k : Nat, (l.drop n).getD k 0 = l.getD (n + k) 0 := by
  induction l with
  | nil => intro n k; simp [List.getD]
  | cons a l ih =>
    intro n k
    cases n with
    | zero => rw [List.drop_zero, Nat.zero_add]
    | succ n =>
      rw [List.drop_succ_cons, ih n k, Nat.succ_add]
      rfl

lemma unpackWords_length : ∀ (q : Nat) (bytes : List Nat), (unpackWords q bytes).length = q := by
  intro q
  induction q with
  | zero => intro bytes; rfl
  | succ q ih => intro bytes; simp [unpackWords, ih]

lemma unpackWords_getD : ∀ (q : Nat) (bytes : List Nat) (i : Nat), i < q →
    (unpackWords q bytes).getD i 0 = 256 * bytes.getD (2 * i) 0 + bytes.getD (2 * i + 1) 0 := by
  intro q
  induction q with
  | zero => intro bytes i h; omega
  | succ q ih =>
    intro bytes i h
    cases i with
    | zero => rfl
    | succ i =>
      have h2 : (unpackWords (q + 1) bytes).getD (i + 1) 0 =
          (unpackWords q (bytes.drop 2)).getD i 0 := rfl
      rw [h2, ih (bytes.drop 2) i (by omega), getD_drop, getD_drop]
      have e1 : 2 + 2 * i = 2 * (i + 1) := by omega
      have e2 : 2 + (2 * i + 1) = 2 * (i + 1) + 1 := by omega
      rw [e1, e2]

lemma packWords_length : ∀ vs : List Nat, (packWords vs).length = 2 * vs.length := by
  intro vs
  induction vs with
  | nil => rfl
  | cons v vs ih => simp [packWords, ih]; omega

lemma packWords_decode : ∀ (vs : List Nat) (i : Nat), i < vs.length →
    256 * (packWords vs).getD (2 * i) 0 + (packWords vs).getD (2 * i + 1) 0 =
      vs.getD i 0 := by
  intro vs
  induction vs with
  | nil => intro i h; simp at h
  | cons v vs ih =>
    intro i h
    cases i with
    | zero =>
      show 256 * (v / 256) + v % 256 = v
      omega
    | succ i =>
      have h2 : (packWords (v :: vs)).getD (2 * (i + 1)) 0 =
          (packWords vs).getD (2 * i) 0 := by
        show (packWords (v :: vs)).getD (2 * i + 2) 0 = (packWords vs).getD (2 * i) 0
        rfl
      have h3 : (packWords (v :: vs)).getD (2 * (i + 1) + 1) 0 =
          (packWords vs).getD (2 * i + 1) 0 := by
        show (packWords (v :: vs)).getD (2 * i + 3) 0 = (packWords vs).getD (2 * i + 1) 0
        rfl
      rw [h2, h3, ih i (by simpa using Nat.lt_of_succ_lt_succ h)]
      rfl

lemma packWords_le : ∀ vs : List Nat, (∀ v ∈ vs, v ≤ 65535) →
    ∀ b ∈ packWords vs, b ≤ 255 := by
  intro vs
  induction vs with
  | nil => intro _ b hb; simp [packWords] at hb
  | cons v vs ih =>
    intro hv b hb
    simp only [packWords, List.mem_cons] at hb
    rcases hb with h | h | h
    · have := hv v (by simp)
      omega
    · omega
    · exact ih (fun x hx => hv x (by simp [hx])) b h

lemma getD_append_right : ∀ (l₁ l₂ : List Nat) (i : Nat),
    (l₁ ++ l₂).getD (l₁.length + i) 0 = l₂.getD i 0 := by
  intro l₁
  induction l₁ with
  | nil => intro l₂ i; rw [List.nil_append, List.length_nil, Nat.zero_add]
  | cons a l ih =>
    intro l₂ i
    rw [List.cons_append, List.length_cons, Nat.succ_add]
    exact ih l₂ i

lemma nextId_le (t : Nat) : 1 ≤ nextId t ∧ nextId t ≤ 255 := by
  unfold nextId
  split <;> omega

/-! ### The claims -/

/-- C2: the transaction identifier counter starts at 0; each issue maps the
counter `t` to `nextId t` and uses that value, so the first request uses
identifier 1, every issued identifier lies in [1, 255] (never 0), and the
identifier issued once the counter has been incremented up to 255 wraps
back to 1 (`idSeq 256 = 1`). -/
theorem claim_transaction_id_cycle :
    idSeq 1 = 1 ∧ (∀ t : Nat, 1 ≤ nextId t ∧ nextId t ≤ 255) ∧
    idSeq 255 = 255 ∧ idSeq 256 = 1 :=
  ⟨by decide, nextId_le, by decide, by decide⟩

/-- C3: on their stated domains the two 16-bit conversions succeed and are
mutually inverse: `int16_to_uint16 ∘ uint16_to_int16` is the identity on
[0, 65535] and `uint16_to_int16 ∘ int16_to_uint16` is the identity on
[-32768, 32767]. -/
theorem claim_conversion_roundtrip :
    (∀ u : Int, 0 ≤ u → u ≤ 65535 →
      (uint16_to_int16 u).bind int16_to_uint16 = some u) ∧
    (∀ i : Int, -32768 ≤ i → i ≤ 32767 →
      (int16_to_uint16 i).bind uint16_to_int16 = some i) := by
  constructor
  · intro u h0 h1
    unfold uint16_to_int16 int16_to_uint16
    split_ifs <;> simp_all [Option.bind] <;> omega
  · intro i h0 h1
    unfold uint16_to_int16 int16_to_uint16
    split_ifs <;> simp_all [Option.bind] <;> omega

/-- Witness for C3 at the domain endpoints 65535 and -32768. -/
theorem claim_conversion_roundtrip_witness :
    (uint16_to_int16 65535).bind int16_to_uint16 = some 65535 ∧
    (int16_to_uint16 (-32768)).bind uint16_to_int16 = some (-32768) :=
  ⟨claim_conversion_roundtrip.1 65535 (by decide) (by decide),
   claim_conversion_roundtrip.2 (-32768) (by decide) (by decide)⟩

/-- C4: the code slip behind the claim.  `string_to_valid_value` parses
`"42"` and `"0x2A"` to 42 as claimed, but on a negative parsed value it
calls `uint16_to_int16` (tinymbc.py line 98), which rejects every
negative input, so `"-1"` fails with `ValueError` instead of yielding
65535; the conversion the spec names, `int16_to_uint16`, would indeed
have produced 65535 from -1. -/
theorem claim_parse_value_negative :
    string_to_valid_value "-1".data = none ∧
    string_to_valid_value "42".data = some 42 ∧
    string_to_valid_value "0x2A".data = some 42 ∧
    int16_to_uint16 (-1) = some 65535 := by decide

/-- C5 counterexample: the claim states that `int16_to_uint16` fails for
every input outside the integers [-32768, 32767], including non-integer
inputs such as 1.5; but the source (tinymbc.py lines 54-61) performs no
integrality check, so 1.5 is accepted and returned unchanged. -/
theorem claim_nonint_range_check_cx :
    int16_to_uint16q (3 / 2 : ℚ) = some (3 / 2 : ℚ) := by
  unfold int16_to_uint16q
  rw [if_neg (by norm_num), if_neg (by norm_num)]

/-- C5 as amended: `uint16_to_int16` fails for every input outside the
integers [0, 65535], including non-integers such as 1.5, and
`int16_to_uint16` fails for every input whose value lies outside
[-32768, 32767]; but `int16_to_uint16` performs no integrality check, so
a non-integer inside that range (e.g. 1.5) is returned unchanged. -/
theorem claim_range_error_behaviour :
    (∀ q : ℚ, ¬(0 ≤ q ∧ q ≤ 65535 ∧ q.den = 1) → uint16_to_int16q q = none) ∧
    (∀ q : ℚ, (q < -32768 ∨ 32767 < q) → int16_to_uint16q q = none) ∧
    uint16_to_int16q (3 / 2 : ℚ) = none ∧
    int16_to_uint16q (3 / 2 : ℚ) = some (3 / 2 : ℚ) := by
  refine ⟨?_, ?_, ?_, ?_⟩
  · intro q h
    unfold uint16_to_int16q
    rw [if_pos]
    by_cases hneg : q < 0
    · exact Or.inl hneg
    · by_cases hd : q.den = 1
      · refine Or.inr (Or.inl ?_)
        have hint : (q.num : ℚ) = q := by
          rw [← Rat.den_eq_one_iff]; exact hd
        have hbig : 65535 < q := by
          by_contra hle
          push_neg at hneg hle
          exact absurd hd (h ⟨hneg, hle, ·⟩)
        have hnum : 65535 < q.num := by
          rw [← hint] at hbig
          exact_mod_cast hbig
        rw [← hint]
        exact_mod_cast hnum
      · exact Or.inr (Or.inr hd)
  · intro q h
    unfold int16_to_uint16q
    rw [if_pos h]
  · unfold uint16_to_int16q
    rw [if_pos]
    refine Or.inr (Or.inr ?_)
    norm_num
  · unfold int16_to_uint16q
    rw [if_neg (by norm_num), if_neg (by norm_num)]

/-- Witness for C5 (amended) just past each end of the two domains. -/
theorem claim_range_error_behaviour_witness :
    uint16_to_int16q (65536 : ℚ) = none ∧ int16_to_uint16q (32768 : ℚ) = none :=
  ⟨claim_range_error_behaviour.1 65536 (by norm_num),
   claim_range_error_behaviour.2.1 32768 (by norm_num)⟩

/-- C6: a read register-group token with a single piece parses to that
address with length 1; a two-piece token is order-normalized (when the
second address is below the first the two are swapped) with
`length = end - start + 1` over the normalized pair, so `"5-5"` gives
start 5 length 1 and `"10-3"` gives start 3 length 8; and the parse fails
with `ValueError` whenever the resulting length exceeds 125. -/
theorem claim_read_group_parsing :
    parseReadGroup "5-5".data = GroupParse.ok 5 1 ∧
    parseReadGroup "10-3".data = GroupParse.ok 3 8 ∧
    (∀ g a addr, splitOnSep '-' g = [a] → string_to_valid_address a = some addr →
      parseReadGroup g = GroupParse.ok addr 1) ∧
    (∀ g a b x y, splitOnSep '-' g = [a, b] →
      string_to_valid_address a = some x → string_to_valid_address b = some y →
      (y = x → parseReadGroup g = GroupParse.ok x 1) ∧
      (x < y → y - x + 1 ≤ 125 → parseReadGroup g = GroupParse.ok x (y - x + 1)) ∧
      (y < x → x - y + 1 ≤ 125 → parseReadGroup g = GroupParse.ok y (x - y + 1)) ∧
      (x < y → 125 < y - x + 1 → parseReadGroup g = GroupParse.fatal) ∧
      (y < x → 125 < x - y + 1 → parseReadGroup g = GroupParse.fatal)) := by
  refine ⟨by decide, by decide, ?_, ?_⟩
  · intro g a addr hs ha
    unfold parseReadGroup
    rw [hs]
    dsimp only
    rw [ha]
  · intro g a b x y hs ha hb
    have hred : parseReadGroup g =
        if 125 < (if y = x then ((x : Nat), (1 : Nat)) else if x < y then (x, y - x + 1)
            else (y, x - y + 1)).2
        then GroupParse.fatal
        else GroupParse.ok
          (if y = x then (x, 1) else if x < y then (x, y - x + 1) else (y, x - y + 1)).1
          (if y = x then (x, 1) else if x < y then (x, y - x + 1) else (y, x - y + 1)).2 := by
      unfold parseReadGroup
      rw [hs]
      simp only [ha, hb]
    rw [hred]
    refine ⟨?_, ?_, ?_, ?_, ?_⟩
    · intro h1
      rw [if_pos h1, if_neg (show ¬125 < ((x : Nat), (1 : Nat)).2 by dsimp only; omega)]
    · intro h1 h2
      rw [if_neg (show ¬(y = x) by omega), if_pos h1,
        if_neg (show ¬125 < ((x : Nat), y - x + 1).2 by dsimp only; omega)]
    · intro h1 h2
      rw [if_neg (show ¬(y = x) by omega), if_neg (show ¬(x < y) by omega),
        if_neg (show ¬125 < ((y : Nat), x - y + 1).2 by dsimp only; omega)]
    · intro h1 h2
      rw [if_neg (show ¬(y = x) by omega), if_pos h1,
        if_pos (show 125 < ((x : Nat), y - x + 1).2 by dsimp only; omega)]
    · intro h1 h2
      rw [if_neg (show ¬(y = x) by omega), if_neg (show ¬(x < y) by omega),
        if_pos (show 125 < ((y : Nat), x - y + 1).2 by dsimp only; omega)]

/-- Witness for C6: a single-piece token and an order-normalized pair. -/
theorem claim_read_group_parsing_witness :
    parseReadGroup "7".data = GroupParse.ok 7 1 :=
  claim_read_group_parsing.2.2.1 "7".data "7".data 7 (by decide) (by decide)

/-- C10: when correlating a read response to its request,
`read_holding_regs` only reads the byte at offset 1 of the received
buffer as transaction id; the byte at offset 0 is never examined, so two
responses that differ only in that byte produce identical outcomes (same
updated client, same accept/reject verdict, same decoded registers). -/
theorem claim_txid_low_byte_only (c : ModbusClient) (start q b0 b0' : Nat)
    (rest : List Nat) :
    read_holding_regs c start q (fun _ => b0 :: rest) =
      read_holding_regs c start q (fun _ => b0' :: rest) := rfl

/-- Evaluation shape of `read_holding_regs`: the counter always advances
to `nextId`, and the result is empty unless the three header checks of
tinymbc.py lines 267-269 pass. -/
lemma read_holding_regs_eq (c : ModbusClient) (start q : Nat)
    (net : List Nat → List Nat) :
    read_holding_regs c start q net =
      ({ c with transaction_id := nextId c.transaction_id },
        if (net [0, nextId c.transaction_id, 0, 0, 0, 6, c.unitid, 3,
              start / 256, start % 256, q / 256, q % 256]).getD 1 0 ≠
              nextId c.transaction_id ∨
            (net [0, nextId c.transaction_id, 0, 0, 0, 6, c.unitid, 3,
              start / 256, start % 256, q / 256, q % 256]).getD 7 0 ≠ 3 ∨
            (net [0, nextId c.transaction_id, 0, 0, 0, 6, c.unitid, 3,
              start / 256, start % 256, q / 256, q % 256]).getD 8 0 ≠ 2 * q
        then []
        else unpackWords q ((net [0, nextId c.transaction_id, 0, 0, 0, 6,
          c.unitid, 3, start / 256, start % 256, q / 256, q % 256]).drop 9)) := by
  unfold read_holding_regs
  dsimp only
  split <;> rfl

/-- One step of `perform_readout` on a cons cell, as a rewriting rule. -/
lemma perform_readout_cons (g : List Char) (rest : List (List Char))
    (net : List Nat → List Nat) (c : ModbusClient) :
    perform_readout (g :: rest) net c =
      match parseReadGroup g with
      | GroupParse.skip => perform_readout rest net c
      | GroupParse.fatal => Except.error PyErr.valueError
      | GroupParse.ok start length =>
        let step := read_holding_regs c start length net
        if step.2.length ≠ length then Except.error PyErr.userWarning
        else
          match perform_readout rest net step.1 with
          | Except.error e => Except.error e
          | Except.ok (c2, rs) =>
            Except.ok (c2, ReadoutResultSet.mk start length step.2 :: rs) := rfl

/-- One step of `perform_write` on a cons cell, as a rewriting rule. -/
lemma perform_write_cons (g : List Char) (rest : List (List Char)) :
    perform_write (g :: rest) =
      match splitOnSep '=' g with
      | [a, v] =>
        match string_to_valid_address a with
        | none => Except.error PyErr.valueError
        | some addr =>
          match parseValues (splitOnSep ';' v) with
          | none => Except.error PyErr.valueError
          | some vals =>
            if vals.length = 1 then
              match perform_write rest with
              | Except.error e => Except.error e
              | Except.ok acts => Except.ok (WriteAction.single addr (vals.headD 0) :: acts)
            else if 1 < vals.length then
              match perform_write rest with
              | Except.error e => Except.error e
              | Except.ok acts => Except.ok (WriteAction.multi addr vals :: acts)
            else perform_write rest
      | _ => perform_write rest := rfl

/-- C1 counterexample: with outstanding transaction id 1 (the counter was
0 and `nextId 0 = 1`), a response whose 2-byte big-endian transaction id
field holds 7·256 + 1 = 1793 does not match the outstanding id, yet
`read_holding_regs` accepts it and returns register data, because only
the low byte at offset 1 is compared; this refutes the claimed
"well-formed only if the transaction id matches / any mismatch returns no
register data". -/
theorem claim_read_validation_cx :
    256 * ([7, 1, 0, 0, 0, 0, 0, 3, 2, 0, 5] : List Nat).getD 0 0 +
        ([7, 1, 0, 0, 0, 0, 0, 3, 2, 0, 5] : List Nat).getD 1 0 ≠ nextId 0 ∧
    (read_holding_regs ⟨1, 0⟩ 0 1
        (fun _ => [7, 1, 0, 0, 0, 0, 0, 3, 2, 0, 5])).2 = [5] := by decide

/-- C1 as amended: for a read of quantity q (1 ≤ q ≤ 125),
`read_holding_regs` treats a response as well-formed iff the byte at
offset 1 of the received buffer (the low byte of the transaction id
field; the high byte is not examined) equals the outstanding id, the
function code byte equals 3 exactly, and the byte count equals 2·q; a
well-formed response decodes to exactly q big-endian 16-bit words from
the payload at offset 9, and any mismatch yields no register data, which
`perform_readout` turns into a `UserWarning` protocol error rather than
partial data. -/
theorem claim_read_validation (c : ModbusClient) (start q : Nat) (recv : List Nat)
    (hq1 : 1 ≤ q) (hq2 : q ≤ 125) :
    ((recv.getD 1 0 = nextId c.transaction_id ∧ recv.getD 7 0 = 3 ∧
        recv.getD 8 0 = 2 * q) →
      (read_holding_regs c start q (fun _ => recv)).2.length = q ∧
      ∀ i, i < q → (read_holding_regs c start q (fun _ => recv)).2.getD i 0 =
          256 * recv.getD (9 + 2 * i) 0 + recv.getD (9 + 2 * i + 1) 0) ∧
    (¬(recv.getD 1 0 = nextId c.transaction_id ∧ recv.getD 7 0 = 3 ∧
        recv.getD 8 0 = 2 * q) →
      (read_holding_regs c start q (fun _ => recv)).2 = [] ∧
      ∀ g, parseReadGroup g = GroupParse.ok start q →
        perform_readout [g] (fun _ => recv) c = Except.error PyErr.userWarning) := by
  have hbase := read_holding_regs_eq c start q (fun _ => recv)
  constructor
  · intro hwf
    have hcond : ¬(recv.getD 1 0 ≠ nextId c.transaction_id ∨ recv.getD 7 0 ≠ 3 ∨
        recv.getD 8 0 ≠ 2 * q) := by
      push_neg
      exact ⟨hwf.1, hwf.2.1, hwf.2.2⟩
    have hres : (read_holding_regs c start q (fun _ => recv)).2 =
        unpackWords q (recv.drop 9) := by
      rw [hbase]
      dsimp only
      rw [if_neg hcond]
    rw [hres]
    refine ⟨unpackWords_length q _, fun i hi => ?_⟩
    rw [unpackWords_getD q _ i hi, getD_drop, getD_drop]
    have e1 : 9 + (2 * i + 1) = 9 + 2 * i + 1 := by omega
    rw [e1]
  · intro hwf
    have hcond : recv.getD 1 0 ≠ nextId c.transaction_id ∨ recv.getD 7 0 ≠ 3 ∨
        recv.getD 8 0 ≠ 2 * q := by tauto
    have hres : (read_holding_regs c start q (fun _ => recv)).2 = [] := by
      rw [hbase]
      dsimp only
      rw [if_pos hcond]
    refine ⟨hres, fun g hg => ?_⟩
    have hlen : (read_holding_regs c start q (fun _ => recv)).2.length ≠ q := by
      rw [hres]
      simp only [List.length_nil]
      omega
    rw [perform_readout_cons, hg]
    dsimp only
    rw [if_pos hlen]

/-- Witness for C1 (amended) at a well-formed single-register response. -/
theorem claim_read_validation_witness :
    (read_holding_regs ⟨1, 0⟩ 0 1
        (fun _ => [0, 1, 0, 0, 0, 0, 0, 3, 2, 0, 5])).2.length = 1 :=
  ((claim_read_validation ⟨1, 0⟩ 0 1 [0, 1, 0, 0, 0, 0, 0, 3, 2, 0, 5]
      (by decide) (by decide)).1 (by decide)).1

/-- C7 counterexample: the claim states that a malformed group token —
including one whose pieces are not parseable — is skipped with a warning
and processing continues with the remaining groups; but `"abc"` (one
piece, unparseable) raises `ValueError` inside `string_to_valid_address`,
which aborts the whole read invocation (tinymbc.py lines 398-400): the
following group `"5"` is never attempted. -/
theorem claim_readout_skip_cx :
    perform_readout ["abc".data, "5".data] (fun _ => []) ⟨1, 0⟩ =
      Except.error PyErr.valueError := by decide

/-- C7 as amended: only a token with other than one or two `-`-separated
pieces (e.g. `"1-2-3"`) is skipped, with processing continuing on the
remaining groups; a token whose pieces fail to parse as addresses (or are
out of bounds) instead raises a fatal `ValueError` that aborts the whole
read invocation. -/
theorem claim_readout_skip (g : List Char) (rest : List (List Char))
    (net : List Nat → List Nat) (c : ModbusClient) :
    ((splitOnSep '-' g).length ≠ 1 → (splitOnSep '-' g).length ≠ 2 →
      perform_readout (g :: rest) net c = perform_readout rest net c) ∧
    (∀ a, splitOnSep '-' g = [a] → string_to_valid_address a = none →
      perform_readout (g :: rest) net c = Except.error PyErr.valueError) := by
  constructor
  · intro h1 h2
    have hskip : parseReadGroup g = GroupParse.skip := by
      rcases hsp : splitOnSep '-' g with _ | ⟨a, t⟩
      · unfold parseReadGroup
        rw [hsp]
      · rcases t with _ | ⟨b, t2⟩
        · exact absurd (by rw [hsp]; rfl) h1
        · rcases t2 with _ | ⟨d, t3⟩
          · exact absurd (by rw [hsp]; rfl) h2
          · unfold parseReadGroup
            rw [hsp]
    rw [perform_readout_cons, hskip]
  · intro a hsp ha
    have hfatal : parseReadGroup g = GroupParse.fatal := by
      unfold parseReadGroup
      rw [hsp]
      dsimp only
      rw [ha]
    rw [perform_readout_cons, hfatal]

/-- Witness for C7 (amended): a three-piece token is skipped and the
remaining group is still processed. -/
theorem claim_readout_skip_witness :
    perform_readout ["1-2-3".data, "5".data]
        (fun _ => [0, 1, 0, 0, 0, 0, 0, 3, 2, 0, 9]) ⟨1, 0⟩ =
      perform_readout ["5".data]
        (fun _ => [0, 1, 0, 0, 0, 0, 0, 3, 2, 0, 9]) ⟨1, 0⟩ :=
  (claim_readout_skip "1-2-3".data ["5".data] _ ⟨1, 0⟩).1 (by decide) (by decide)

/-- C8 counterexample: the claim states that each write group is
attempted independently and a failure on one group does not abort the
later groups; but the malformed group `"a=1"` raises `ValueError` inside
`string_to_valid_address`, which propagates out of `perform_write`
(caught only at tinymbc.py lines 423-425), so the later well-formed group
`"5=1"` is never attempted. -/
theorem claim_write_independent_cx :
    perform_write ["a=1".data, "5=1".data] = Except.error PyErr.valueError := by
  decide

/-- C8 as amended: only a write group token with other than exactly two
`=`-separated pieces is skipped with processing continuing on the later
groups; a group whose address (or value) text fails to parse raises a
fatal `ValueError` that aborts all later write groups.  (Write responses
are never validated by the source, so a protocol mismatch in a response
is neither detected nor able to abort anything.) -/
theorem claim_write_independent (g : List Char) (rest : List (List Char)) :
    ((splitOnSep '=' g).length ≠ 2 → perform_write (g :: rest) = perform_write rest) ∧
    (∀ a v, splitOnSep '=' g = [a, v] → string_to_valid_address a = none →
      perform_write (g :: rest) = Except.error PyErr.valueError) := by
  constructor
  · intro h2
    rcases hsp : splitOnSep '=' g with _ | ⟨a, t⟩
    · rw [perform_write_cons, hsp]
    · rcases t with _ | ⟨b, t2⟩
      · rw [perform_write_cons, hsp]
      · rcases t2 with _ | ⟨d, t3⟩
        · exact absurd (by rw [hsp]; rfl) h2
        · rw [perform_write_cons, hsp]
  · intro a v hsp ha
    rw [perform_write_cons, hsp]
    dsimp only
    rw [ha]

/-- Witness for C8 (amended): a group with no `=` is skipped and the
later group is still processed. -/
theorem claim_write_independent_witness :
    perform_write ["abc".data, "5=1".data] = perform_write ["5=1".data] :=
  (claim_write_independent "abc".data ["5=1".data]).1 (by decide)

/-- Index-shifted access into the payload behind the 13-byte
write-multiple-registers header. -/
lemma getD_append_right13 (l₁ l₂ : List Nat) (i : Nat) (h : l₁.length = 13) :
    (l₁ ++ l₂).getD (13 + i) 0 = l₂.getD i 0 := by
  rw [← h]
  exact getD_append_right l₁ l₂ i

/-- Evaluation of `write_multi_regs` when neither `pack('>H', …)` nor
`array('B', …)` overflows. -/
lemma write_multi_regs_eq (c : ModbusClient) (address : Nat) (values : List Nat)
    (h1 : values.any (fun v => 65535 < v) = false)
    (h2 : ([0, nextId c.transaction_id, 0, 0, 0, 7 + (packWords values).length,
        c.unitid, 16, address / 256, address % 256,
        (packWords values).length / 2 / 256, (packWords values).length / 2 % 256,
        (packWords values).length] : List Nat).any (fun b => 255 < b) = false) :
    write_multi_regs c address values =
      some ({ c with transaction_id := nextId c.transaction_id },
        [0, nextId c.transaction_id, 0, 0, 0, 7 + (packWords values).length,
         c.unitid, 16, address / 256, address % 256,
         (packWords values).length / 2 / 256, (packWords values).length / 2 % 256,
         (packWords values).length] ++ packWords values) := by
  unfold write_multi_regs
  dsimp only
  rw [if_neg (by simp [h1]), if_neg (by simp [h2])]

/-- C9 counterexample: the claim quantifies over every non-empty value
list, but for 125 values the source computes `msg_length = 7 + 2·125 =
257`, which does not fit the single byte the header construction gives it
(`array('B', …)` raises `OverflowError`, tinymbc.py line 324), so no
frame of the claimed shape is produced at all. -/
theorem claim_write_multi_frame_cx :
    write_multi_regs ⟨1, 0⟩ 0 (List.replicate 125 0) = none := by decide

/-- C9 as amended: for every address in [0, 65535], every unit id in
[0, 255] and every non-empty list of at most 124 values in [0, 65535]
(so that the one-byte Length and byte-count cells cannot overflow), the
outbound write-multiple-registers frame consists of the 2-byte big-endian
transaction id, 2-byte protocol id 0, 2-byte big-endian Length 7 + 2·n,
1-byte unit id, function code 16, 2-byte big-endian address, 2-byte
big-endian quantity n, 1-byte byte count 2·n, then the n values as
big-endian 16-bit words in order. -/
theorem claim_write_multi_frame (c : ModbusClient) (address : Nat) (values : List Nat)
    (ha : address ≤ 65535) (hu : c.unitid ≤ 255) (_h0 : values ≠ [])
    (hn : values.length ≤ 124) (hv : ∀ v ∈ values, v ≤ 65535) :
    ∃ frame,
      write_multi_regs c address values =
        some ({ c with transaction_id := nextId c.transaction_id }, frame) ∧
      frame.length = 13 + 2 * values.length ∧
      (∀ b ∈ frame, b ≤ 255) ∧
      256 * frame.getD 0 0 + frame.getD 1 0 = nextId c.transaction_id ∧
      256 * frame.getD 2 0 + frame.getD 3 0 = 0 ∧
      256 * frame.getD 4 0 + frame.getD 5 0 = 7 + 2 * values.length ∧
      frame.getD 6 0 = c.unitid ∧
      frame.getD 7 0 = 16 ∧
      256 * frame.getD 8 0 + frame.getD 9 0 = address ∧
      256 * frame.getD 10 0 + frame.getD 11 0 = values.length ∧
      frame.getD 12 0 = 2 * values.length ∧
      (∀ i, i < values.length →
        256 * frame.getD (13 + 2 * i) 0 + frame.getD (13 + 2 * i + 1) 0 =
          values.getD i 0) := by
  have hplen : (packWords values).length = 2 * values.length := packWords_length values
  have htid := nextId_le c.transaction_id
  have h1 : values.any (fun v => 65535 < v) = false := by
    rw [List.any_eq_false]
    intro x hx
    simp only [decide_eq_true_eq, not_lt]
    exact hv x hx
  have h2 : ([0, nextId c.transaction_id, 0, 0, 0, 7 + (packWords values).length,
      c.unitid, 16, address / 256, address % 256,
      (packWords values).length / 2 / 256, (packWords values).length / 2 % 256,
      (packWords values).length] : List Nat).any (fun b => 255 < b) = false := by
    rw [List.any_eq_false]
    intro x hx
    simp only [List.mem_cons, List.not_mem_nil, or_false] at hx
    simp only [decide_eq_true_eq, not_lt]
    rcases hx with rfl | rfl | rfl | rfl | rfl | rfl | rfl | rfl | rfl | rfl | rfl | rfl | rfl <;>
      omega
  refine ⟨_, write_multi_regs_eq c address values h1 h2,
    ?_, ?_, ?_, ?_, ?_, ?_, ?_, ?_, ?_, ?_, ?_⟩
  · simp only [List.length_append, List.length_cons, List.length_nil, hplen]
    try omega
  · intro b hb
    rw [List.mem_append] at hb
    rcases hb with hb | hb
    · simp only [List.mem_cons, List.not_mem_nil, or_false] at hb
      rcases hb with rfl | rfl | rfl | rfl | rfl | rfl | rfl | rfl | rfl | rfl | rfl | rfl | rfl <;>
        omega
    · exact packWords_le values hv b hb
  · simp only [List.cons_append, List.getD_cons_zero, List.getD_cons_succ]
    try omega
  · simp only [List.cons_append, List.getD_cons_zero, List.getD_cons_succ]
    try omega
  · simp only [List.cons_append, List.getD_cons_zero, List.getD_cons_succ]
    try omega
  · simp only [List.cons_append, List.getD_cons_zero, List.getD_cons_succ]
    try omega
  · simp only [List.cons_append, List.getD_cons_zero, List.getD_cons_succ]
  · simp only [List.cons_append, List.getD_cons_zero, List.getD_cons_succ]
    try omega
  · simp only [List.cons_append, List.getD_cons_zero, List.getD_cons_succ]
    try omega
  · simp only [List.cons_append, List.getD_cons_zero, List.getD_cons_succ]
    try omega
  · intro i hi
    rw [show (13 : Nat) + 2 * i + 1 = 13 + (2 * i + 1) from by omega,
      getD_append_right13 _ _ _ (by rfl), getD_append_right13 _ _ _ (by rfl)]
    exact packWords_decode values i hi

/-- Witness for C9 (amended) at unit id 1, address 2, values [3, 4]. -/
theorem claim_write_multi_frame_witness :
    ∃ frame,
      write_multi_regs ⟨1, 0⟩ 2 [3, 4] = some (⟨1, nextId 0⟩, frame) ∧
      frame.length = 13 + 2 * ([3, 4] : List Nat).length ∧
      (∀ b ∈ frame, b ≤ 255) ∧
      256 * frame.getD 0 0 + frame.getD 1 0 = nextId 0 ∧
      256 * frame.getD 2 0 + frame.getD 3 0 = 0 ∧
      256 * frame.getD 4 0 + frame.getD 5 0 = 7 + 2 * ([3, 4] : List Nat).length ∧
      frame.getD 6 0 = 1 ∧
      frame.getD 7 0 = 16 ∧
      256 * frame.getD 8 0 + frame.getD 9 0 = 2 ∧
      256 * frame.getD 10 0 + frame.getD 11 0 = ([3, 4] : List Nat).length ∧
      frame.getD 12 0 = 2 * ([3, 4] : List Nat).length ∧
      (∀ i, i < ([3, 4] : List Nat).length →
        256 * frame.getD (13 + 2 * i) 0 + frame.getD (13 + 2 * i + 1) 0 =
          ([3, 4] : List Nat).getD i 0) :=
  claim_write_multi_frame ⟨1, 0⟩ 2 [3, 4] (by decide) (by decide) (by decide)
    (by decide) (by decide)

end Tinymbc
